import Mathlib

/-!
Verification of the python-parted binding's core semantics.

Python-level logic (device.py, geom.py, disk.py, constraint.py, excpt.py) is
translated directly from the source.  Functions of the native libparted
library that the binding calls (`ped_alignment_intersect`,
`ped_constraint_is_solution`, `ped_geometry_new`, `ped_geometry_set`,
`ped_geometry_read`/`ped_geometry_write`) have no implementation in the
repository (build.py only declares them); those are modelled from the spec
and are marked `Modelled from the spec:` in their doc comments.

Sectors, sizes and offsets are Python arbitrary-precision integers, so they
are embedded as `Int` (or `Nat` where the value is a count).
-/

namespace Parted

/-- Device state relevant to sector arithmetic: `device.py` properties
`sector_size` (line 200) and `length` (line 212). -/
structure Device where
  sectorSize : Int
  length : Int
  deriving Repr, DecidableEq

/-- From `device.py` `Device.read`, lines 411-412: a negative start sector is
replaced by `self.length + sector_start` ("from end") before the native read. -/
def Device.readEffectiveStart (dev : Device) (sectorStart : Int) : Int :=
  if sectorStart < 0 then dev.length + sectorStart else sectorStart

/-- From `device.py` `Device.write`, lines 440-441: the same transformation as
in `read` is applied to a negative start sector before the native write. -/
def Device.writeEffectiveStart (dev : Device) (sectorStart : Int) : Int :=
  if sectorStart < 0 then dev.length + sectorStart else sectorStart

/-- From `device.py` `Device.write`, lines 443-446: the buffer is padded with
zero bytes up to `sector_count * sector_size` before the native write. -/
def Device.writeBuffer (dev : Device) (buffer : List Nat) (sectorCount : Int) : List Nat :=
  if (buffer.length : Int) < sectorCount * dev.sectorSize then
    buffer ++ List.replicate ((sectorCount * dev.sectorSize).toNat - buffer.length) 0
  else
    buffer

/-- Alignment value: `alignment.py` wraps a `PedAlignment` with fields
`offset` and `grain_size` (lines 110-126); both are sector-sized integers. -/
structure Alignment where
  offset : Int
  grainSize : Int
  deriving Repr, DecidableEq

/-- `Alignment.none()` (`alignment.py` line 259): offset 0, grain 0; the
library's canonical empty/unsatisfiable alignment value. -/
def Alignment.none : Alignment := ⟨0, 0⟩

/-- `Alignment.any()` (`alignment.py` line 249): offset 0, grain 1, the
universal alignment. -/
def Alignment.any : Alignment := ⟨0, 1⟩

/-- Modelled from the spec: membership of a sector in the set an alignment
represents (`ped_alignment_is_aligned` has no implementation in the
repository).  Per spec §3 an alignment represents
`{offset + k * grain_size : k ∈ ℤ}` when `grain_size > 0`; `grain_size == 0`
denotes "only sector == offset", except that offset 0 with grain 0 is the
empty "none" alignment. -/
def Alignment.isSatisfied (a : Alignment) (s : Int) : Prop :=
  if a.grainSize = 0 then a.offset ≠ 0 ∧ s = a.offset
  else a.grainSize ∣ (s - a.offset)

instance (a : Alignment) (s : Int) : Decidable (a.isSatisfied s) := by
  unfold Alignment.isSatisfied
  infer_instance

/-- Modelled from the spec: the solvability condition of
`ped_alignment_intersect` (no implementation in the repository): spec §3, the
intersection "exists iff `(o1 - o2) mod gcd(g1,g2) == 0`". -/
def Alignment.crtCond (a b : Alignment) : Prop :=
  (a.offset - b.offset) % (Int.gcd a.grainSize b.grainSize : Int) = 0

instance (a b : Alignment) : Decidable (a.crtCond b) := by
  unfold Alignment.crtCond
  infer_instance

/-- Modelled from the spec: a common solution of the two congruences, built
with Bezout coefficients, used as the offset of the intersection of two
alignments (Chinese Remainder Theorem construction, spec §3). -/
def Alignment.crtOffset (a b : Alignment) : Int :=
  a.offset +
    a.grainSize * Int.gcdA a.grainSize b.grainSize *
      ((b.offset - a.offset) / (Int.gcd a.grainSize b.grainSize : Int))

/-- Modelled from the spec: `ped_alignment_intersect` (no implementation in
the repository; `alignment.py` line 167 delegates to it).  Spec §3: the
intersection exists iff `(o1 - o2) mod gcd(g1,g2) == 0` and then has
`grain = lcm(g1,g2)`; no solution gives the "none" alignment.  The offset is
the CRT common solution, reduced modulo the grain when the grain is
positive. -/
def Alignment.intersect (a b : Alignment) : Alignment :=
  if Alignment.crtCond a b then
    if (Int.lcm a.grainSize b.grainSize : Int) = 0 then
      ⟨Alignment.crtOffset a b, 0⟩
    else
      ⟨Alignment.crtOffset a b % (Int.lcm a.grainSize b.grainSize : Int),
        (Int.lcm a.grainSize b.grainSize : Int)⟩
  else Alignment.none

/-- Error kinds raised by the binding (`exceptions.py`): `InvalidObjectError`
(from the `ensure_obj` decorator, `util.py` line 80), `InvalidPartitionError`,
`InvalidDeviceError`, and the catch-all `PartedException`. -/
inductive PyErr where
  | invalidObject
  | invalidPartition
  | invalidDevice
  | parted
  deriving Repr, DecidableEq

/-- `PartitionType.FREE` bit (`disk.py` line 49). -/
def PartitionType.FREE : Nat := 4

/-- `PartitionType.METADATA` bit (`disk.py` line 50). -/
def PartitionType.METADATA : Nat := 8

/-- `PartitionType.is_valid` (`disk.py` lines 77-79): true iff the flag value
has neither the FREE bit nor the METADATA bit. -/
def PartitionType.isValid (v : Nat) : Bool :=
  ((v &&& PartitionType.FREE) ||| (v &&& PartitionType.METADATA)) == 0

/-- State of a `Partition` wrapper (`disk.py` lines 129-144) together with
the native-struct fields its predicates consult: `_partition` nullability,
`_destroyable`, the partition's type flags, and the nullability of
`partition->disk`, `disk->type`, `disk->type->ops`. -/
structure Partition where
  hasHandle : Bool
  destroyable : Bool
  typeValue : Nat
  hasDisk : Bool
  diskHasType : Bool
  diskTypeHasOps : Bool
  deriving Repr, DecidableEq

/-- `Partition.active` (`disk.py` lines 250-257): guarded by
`ensure_obj_or_default(False)`, else `self.type.is_valid`. -/
def Partition.active (p : Partition) : Bool :=
  if p.hasHandle then PartitionType.isValid p.typeValue else false

/-- `Partition.is_valid` (`disk.py` lines 303-314): the handle, activity and
the disk/type/ops back-pointers must all be truthy. -/
def Partition.isValid (p : Partition) : Bool :=
  p.hasHandle && p.active && p.hasDisk && p.diskHasType && p.diskTypeHasOps

/-- `Disk.delete_partition` (`disk.py` lines 972-992).  `diskHasHandle` is the
disk's `ensure_obj` guard; `nativeOk` is the outcome of the external
`ped_disk_delete_partition` call.  Returns the raised error (if any) together
with the partition handle state after the call. -/
def Disk.deletePartition (diskHasHandle : Bool) (p : Partition) (nativeOk : Bool) :
    Except PyErr Unit × Partition :=
  if ¬diskHasHandle then (Except.error PyErr.invalidObject, p)
  else if ¬p.isValid then (Except.error PyErr.invalidPartition, p)
  else if ¬nativeOk then (Except.error PyErr.parted, p)
  else (Except.ok (), { p with hasHandle := false, destroyable := false })

/-- State of a `Geometry` wrapper (`geom.py` lines 48-88) with the fields the
mutators consult: `_geometry` nullability, the nullability of
`geometry->dev`, the device length, and the wrapped start/length. -/
structure Geometry where
  hasHandle : Bool
  hasDev : Bool
  devLength : Int
  start : Int
  length : Int
  deriving Repr, DecidableEq

/-- Derived `end` sector of a geometry: `start + length - 1` (spec §3). -/
def Geometry.sectorEnd (g : Geometry) : Int := g.start + g.length - 1

/-- Modelled from the spec: the success condition of the native
`ped_geometry_set` (declared in `build.py` line 394, no implementation in the
repository).  Spec §4.1/§3: a geometry update fails on invalid ranges, i.e.
unless `0 ≤ start`, `length ≥ 1` and `start + length ≤ device.length`. -/
def pedGeometrySetOk (devLength start len : Int) : Bool :=
  decide (0 ≤ start ∧ 1 ≤ len ∧ start + len ≤ devLength)

/-- The `start` property setter (`geom.py` lines 123-130): on a null handle
it returns silently; otherwise a failing native `ped_geometry_set_start`
(which keeps the end sector fixed) raises `PartedException`. -/
def Geometry.setStartProp (g : Geometry) (value : Int) : Except PyErr Geometry :=
  if ¬g.hasHandle then Except.ok g
  else if pedGeometrySetOk g.devLength value (g.sectorEnd - value + 1) then
    Except.ok { g with start := value, length := g.sectorEnd - value + 1 }
  else Except.error PyErr.parted

/-- The `length` property setter (`geom.py` lines 138-145): on a null handle
it returns silently; otherwise delegates to `ped_geometry_set(geom, start,
value)`. -/
def Geometry.setLengthProp (g : Geometry) (value : Int) : Except PyErr Geometry :=
  if ¬g.hasHandle then Except.ok g
  else if pedGeometrySetOk g.devLength g.start value then
    Except.ok { g with length := value }
  else Except.error PyErr.parted

/-- The `end` property setter (`geom.py` lines 153-159): on a null handle it
returns silently; otherwise delegates to `ped_geometry_set_end` (which keeps
the start sector fixed). -/
def Geometry.setEndProp (g : Geometry) (value : Int) : Except PyErr Geometry :=
  if ¬g.hasHandle then Except.ok g
  else if pedGeometrySetOk g.devLength g.start (value - g.start + 1) then
    Except.ok { g with length := value - g.start + 1 }
  else Except.error PyErr.parted

/-- `Geometry.set` (`geom.py` lines 291-318): `ensure_obj` guard, device
guard, `-1` sentinels meaning "keep the current value", explicit rejection of
non-positive start or length, then the native `ped_geometry_set`. -/
def Geometry.set (g : Geometry) (start len : Int) : Except PyErr Geometry :=
  if ¬g.hasHandle then Except.error PyErr.invalidObject
  else if ¬g.hasDev then Except.error PyErr.invalidDevice
  else
    let start := if start = -1 then g.start else start
    let len := if len = -1 then g.length else len
    if start ≤ 0 then Except.error PyErr.parted
    else if len ≤ 0 then Except.error PyErr.parted
    else if pedGeometrySetOk g.devLength start len then
      Except.ok { g with start := start, length := len }
    else Except.error PyErr.parted

/-- `PedException.register_handler` (`excpt.py` lines 151-161): replaces the
installed handler slot. -/
def PedException.registerHandler {H : Type} (_state : Option H) (h : H) : Option H :=
  some h

/-- `PedException.restore_handler` (`excpt.py` lines 163-166): clears the
slot back to the default (`None`). -/
def PedException.restoreHandler {H : Type} (_state : Option H) : Option H :=
  Option.none

/-- `PedException.with_handler` (`excpt.py` lines 168-189): registers the
handler, runs the body (which may itself change the slot, and either returns
normally or raises — the `Bool` in its result), then in the `finally` block
restores the default and re-registers the old handler when one was
installed.  Returns the final slot state and the body's outcome. -/
def PedException.withHandler {H : Type} (state : Option H) (h : H)
    (body : Option H → Option H × Bool) : Option H × Bool :=
  let old := state
  let res := body (PedException.registerHandler state h)
  let s3 := PedException.restoreHandler res.1
  (match old with
   | some oldh => PedException.registerHandler s3 oldh
   | Option.none => s3,
   res.2)

/-- A geometry value: the `(start, length)` pair of a sector range (the
device reference is carried separately where needed).  Used for constraint
ranges and partition geometries. -/
structure GeomRange where
  start : Int
  length : Int
  deriving Repr, DecidableEq

/-- Derived `end` sector of a geometry value: `start + length - 1`
(spec §3). -/
def GeomRange.sectorEnd (g : GeomRange) : Int := g.start + g.length - 1

/-- Modelled from the spec: sector membership,
`ped_geometry_test_sector_inside` (declared in `build.py`, no implementation
in the repository): the sector lies between `start` and `end` (spec §4.1
`contains(sector)`). -/
def GeomRange.containsSector (g : GeomRange) (s : Int) : Prop :=
  g.start ≤ s ∧ s ≤ g.sectorEnd

instance (g : GeomRange) (s : Int) : Decidable (g.containsSector s) := by
  unfold GeomRange.containsSector
  infer_instance

/-- Modelled from the spec: `ped_geometry_new` (declared in `build.py` line
390, no implementation in the repository).  Spec §4.1: `new(device, start,
length)` fails unless the range is valid on the device (invariant §3:
`0 ≤ start ≤ end < device.length` with `length ≥ 1`); the binding wraps a
NULL handle on failure, modelled as `none`. -/
def pedGeometryNew (devLength start len : Int) : Option GeomRange :=
  if 0 ≤ start ∧ 1 ≤ len ∧ start + len ≤ devLength then some ⟨start, len⟩
  else Option.none

/-- A constraint value (`constraint.py` lines 40-70): start/end alignments,
start/end ranges, and the size bounds, all in sectors. -/
structure Constraint where
  startAlign : Alignment
  endAlign : Alignment
  startRange : GeomRange
  endRange : GeomRange
  minSize : Int
  maxSize : Int
  deriving Repr, DecidableEq

/-- Modelled from the spec: `ped_constraint_is_solution` (declared in
`build.py`, no implementation in the repository), following the repository's
own docstring (`constraint.py` lines 208-215) and spec §3: the start
satisfies the start alignment and lies in the start range, the end satisfies
the end alignment and lies in the end range, and the length is within
`[min_size, max_size]`. -/
def Constraint.isSolution (c : Constraint) (g : GeomRange) : Prop :=
  c.startAlign.isSatisfied g.start ∧ c.startRange.containsSector g.start ∧
  c.endAlign.isSatisfied g.sectorEnd ∧ c.endRange.containsSector g.sectorEnd ∧
  c.minSize ≤ g.length ∧ g.length ≤ c.maxSize

/-- The constraint `Disk.add_partition` synthesizes when no constraint is
given (`disk.py` lines 1070-1082): alignments `(geometry.start, 0)` and
`(geometry.end, 0)`, ranges `Geometry(dev, geometry.start, geometry.start)`
and `Geometry(dev, geometry.end, geometry.end)` (note: the LENGTH passed is
the start/end sector itself), and `min_size = max_size = geometry.length`.
`Constraint.new` (`constraint.py` lines 350-355) rejects non-positive
min/max sizes; an invalid range geometry wraps NULL, which the native
constraint constructor cannot accept — both modelled as `none`. -/
def Disk.addPartitionSynthConstraint (devLength : Int) (pg : GeomRange) : Option Constraint :=
  match pedGeometryNew devLength pg.start pg.start,
        pedGeometryNew devLength pg.sectorEnd pg.sectorEnd with
  | some sr, some er =>
      if pg.length ≤ 0 then Option.none
      else some ⟨⟨pg.start, 0⟩, ⟨pg.sectorEnd, 0⟩, sr, er, pg.length, pg.length⟩
  | _, _ => Option.none

/-- `Constraint.align` (`constraint.py` lines 296-326): the Python code
computes `align = (align * 1024 + dev.sector_size - 1) // dev.sector_size`
(floor division, the argument being interpreted in KiB), then calls
`Constraint.new` with `start_align = Alignment(0, align)`,
`end_align = Alignment(-1, align)`, both ranges `Geometry(dev, 0,
dev.length)`, `min_size_sector = align` and `max_size_sector = dev.length`.
`Constraint.new` raises `PartedException` on non-positive min or max. -/
def Constraint.align (dev : Device) (alignKb : Int) : Except PyErr Constraint :=
  let grain := Int.fdiv (alignKb * 1024 + dev.sectorSize - 1) dev.sectorSize
  if grain ≤ 0 then Except.error PyErr.parted
  else if dev.length ≤ 0 then Except.error PyErr.parted
  else Except.ok ⟨⟨0, grain⟩, ⟨-1, grain⟩, ⟨0, dev.length⟩, ⟨0, dev.length⟩, grain, dev.length⟩

/-- Sector-level device read: `count` sectors starting at `start`
(`Device.read`, `device.py` line 416, restricted to in-range non-negative
starts as used by `copy`). -/
def Device.readSectors (disk : List Nat) (start count : Nat) : List Nat :=
  (disk.drop start).take count

/-- Sector-level device write: replaces `buf.length` sectors starting at
`start` (`Device.write`, `device.py` line 448, for in-range writes). -/
def Device.writeSectors (disk : List Nat) (buf : List Nat) (start : Nat) : List Nat :=
  disk.take start ++ buf ++ disk.drop (start + buf.length)

/-- The inner `do_copy` of `Device.copy` (`device.py` lines 476-483): read
`size` sectors at `source.start + sector_num` from the CURRENT device state
and write them at `to + sector_num`. -/
def Device.doCopy (disk : List Nat) (srcStart dst sectorNum size : Nat) : List Nat :=
  Device.writeSectors disk (Device.readSectors disk (srcStart + sectorNum) size) (dst + sectorNum)

/-- `Device.copy` (`device.py` lines 451-497): no transfer when
`source.start == to`; otherwise full blocks of `sectors_block` sectors are
copied in ascending order when `source.start > to` and in descending order
otherwise, and a non-zero final partial block is copied LAST in either
case. -/
def Device.copy (disk : List Nat) (srcStart srcLen dst blockSize : Nat) : List Nat :=
  if srcStart = dst then disk
  else
    let blockCount := srcLen / blockSize
    let blockRest := srcLen % blockSize
    let order := if dst < srcStart then List.range blockCount else (List.range blockCount).reverse
    let d1 := order.foldl (fun st blk => Device.doCopy st srcStart dst (blk * blockSize) blockSize) disk
    if blockRest ≠ 0 then Device.doCopy d1 srcStart dst (blockCount * blockSize) blockRest else d1

/-- Modelled from the spec: byte-level `ped_geometry_read` (declared in
`build.py`, no implementation in the repository): `count` sectors starting
at sector `offset` of the region, as bytes.  `devBytes` maps a byte position
of the region to its stored value; `ss` is the device sector size. -/
def Geometry.readBytes (devBytes : Nat → Nat) (ss offset count : Nat) : List Nat :=
  (List.range (count * ss)).map (fun i => devBytes (offset * ss + i))

/-- `Geometry.write` (`geom.py` lines 414-440): `sector_count` is
`ceil(len(data) / sector_size)`; when the data is shorter than
`sector_count` whole sectors, the last affected sector is read back and its
tail from byte `len(data) % sector_size` onward is appended to the buffer
(read-modify-write); the buffer is then written at sector `offset` for
`sector_count` sectors (modelled from the spec: `ped_geometry_write`
replaces exactly those bytes). -/
def Geometry.writeBytes (devBytes : Nat → Nat) (ss : Nat) (data : List Nat) (offset : Nat) :
    Nat → Nat :=
  let sc := (data.length + ss - 1) / ss
  let buf :=
    if data.length < sc * ss then
      data ++ (Geometry.readBytes devBytes ss (offset + sc - 1) 1).drop (data.length % ss)
    else data
  fun p =>
    if offset * ss ≤ p ∧ p < offset * ss + sc * ss then buf.getD (p - offset * ss) 0
    else devBytes p

/-- A satisfied alignment divides the distance to its offset (degenerate
grain included). -/
theorem Alignment.isSatisfied_dvd {a : Alignment} {s : Int}
    (h : a.isSatisfied s) : a.grainSize ∣ (s - a.offset) := by
  unfold Alignment.isSatisfied at h
  by_cases hg : a.grainSize = 0
  · rw [if_pos hg] at h
    rw [hg, h.2]
    simp
  · rwa [if_neg hg] at h

/-- Two simultaneously satisfied alignments force the CRT condition. -/
theorem Alignment.satBoth_crtCond {a b : Alignment} {s : Int}
    (ha : a.isSatisfied s) (hb : b.isSatisfied s) : a.crtCond b := by
  unfold Alignment.crtCond
  have h1 : (Int.gcd a.grainSize b.grainSize : Int) ∣ (s - a.offset) :=
    dvd_trans Int.gcd_dvd_left (Alignment.isSatisfied_dvd ha)
  have h2 : (Int.gcd a.grainSize b.grainSize : Int) ∣ (s - b.offset) :=
    dvd_trans Int.gcd_dvd_right (Alignment.isSatisfied_dvd hb)
  have h3 : (Int.gcd a.grainSize b.grainSize : Int) ∣ (a.offset - b.offset) := by
    have := dvd_sub h2 h1
    simpa using this
  exact Int.emod_eq_zero_of_dvd h3

/-- The CRT offset satisfies the first congruence. -/
theorem Alignment.crtOffset_dvd_left (a b : Alignment) :
    a.grainSize ∣ (Alignment.crtOffset a b - a.offset) := by
  unfold Alignment.crtOffset
  have h1 : a.offset +
      a.grainSize * Int.gcdA a.grainSize b.grainSize *
        ((b.offset - a.offset) / (Int.gcd a.grainSize b.grainSize : Int)) - a.offset
      = a.grainSize * (Int.gcdA a.grainSize b.grainSize *
        ((b.offset - a.offset) / (Int.gcd a.grainSize b.grainSize : Int))) := by ring
  rw [h1]
  exact dvd_mul_right _ _

/-- The CRT offset satisfies the second congruence, given the CRT
condition. -/
theorem Alignment.crtOffset_dvd_right (a b : Alignment) (h : a.crtCond b) :
    b.grainSize ∣ (Alignment.crtOffset a b - b.offset) := by
  unfold Alignment.crtCond at h
  unfold Alignment.crtOffset
  have hd : (Int.gcd a.grainSize b.grainSize : Int) ∣ (b.offset - a.offset) := by
    have : (Int.gcd a.grainSize b.grainSize : Int) ∣ (a.offset - b.offset) :=
      Int.dvd_of_emod_eq_zero h
    have := dvd_neg.mpr this
    simpa using this
  set d : Int := (Int.gcd a.grainSize b.grainSize : Int) with hdDef
  set m : Int := (b.offset - a.offset) / d with hmDef
  have hm : m * d = b.offset - a.offset := Int.ediv_mul_cancel hd
  have hbez : d = a.grainSize * Int.gcdA a.grainSize b.grainSize +
      b.grainSize * Int.gcdB a.grainSize b.grainSize := Int.gcd_eq_gcd_ab _ _
  have key : a.offset + a.grainSize * Int.gcdA a.grainSize b.grainSize * m - b.offset
      = -(b.grainSize * (Int.gcdB a.grainSize b.grainSize * m)) := by
    have h1 : a.grainSize * Int.gcdA a.grainSize b.grainSize
        = d - b.grainSize * Int.gcdB a.grainSize b.grainSize := by
      rw [hbez]; ring
    rw [h1]
    have h2 : (d - b.grainSize * Int.gcdB a.grainSize b.grainSize) * m
        = m * d - b.grainSize * (Int.gcdB a.grainSize b.grainSize * m) := by ring
    rw [h2, hm]
    ring
  rw [key]
  exact dvd_neg.mpr (dvd_mul_right _ _)

/-- Degenerate-grain satisfaction unfolds to offset equality. -/
theorem Alignment.isSatisfied_iff_zero {a : Alignment} (h : a.grainSize = 0) (s : Int) :
    a.isSatisfied s ↔ (a.offset ≠ 0 ∧ s = a.offset) := by
  simp [Alignment.isSatisfied, h]

/-- Positive-grain satisfaction unfolds to divisibility. -/
theorem Alignment.isSatisfied_iff_dvd {a : Alignment} (h : a.grainSize ≠ 0) (s : Int) :
    a.isSatisfied s ↔ a.grainSize ∣ (s - a.offset) := by
  simp [Alignment.isSatisfied, h]

/-- The CRT satisfaction law of the modelled `ped_alignment_intersect`: a
sector satisfies the intersection exactly when it satisfies both
alignments. -/
theorem Alignment.intersect_isSatisfied (a b : Alignment) (s : Int) :
    (a.intersect b).isSatisfied s ↔ (a.isSatisfied s ∧ b.isSatisfied s) := by
  by_cases hc : a.crtCond b
  · by_cases hga : a.grainSize = 0 <;> by_cases hgb : b.grainSize = 0
    · -- both grains zero: condition forces equal offsets
      have hoab : a.offset = b.offset := by
        unfold Alignment.crtCond at hc
        rw [hga, hgb] at hc
        simpa [sub_eq_zero] using hc
      have hr : a.intersect b = ⟨a.offset, 0⟩ := by
        unfold Alignment.intersect Alignment.crtOffset
        rw [if_pos hc, hga, hgb]
        norm_num [Int.lcm]
      rw [hr, Alignment.isSatisfied_iff_zero rfl,
        Alignment.isSatisfied_iff_zero hga, Alignment.isSatisfied_iff_zero hgb]
      constructor
      · rintro ⟨h0, hs⟩
        exact ⟨⟨h0, hs⟩, hoab ▸ h0, hoab ▸ hs⟩
      · rintro ⟨⟨h0, hs⟩, -⟩
        exact ⟨h0, hs⟩
    · -- a degenerate, b a true congruence
      have hdvd : b.grainSize ∣ (a.offset - b.offset) := by
        unfold Alignment.crtCond at hc
        have h1 : ((Int.gcd a.grainSize b.grainSize : Nat) : Int) ∣ (a.offset - b.offset) :=
          Int.dvd_of_emod_eq_zero hc
        rw [hga, Int.gcd_zero_left] at h1
        exact Int.natAbs_dvd.mp h1
      have hr : a.intersect b = ⟨a.offset, 0⟩ := by
        unfold Alignment.intersect Alignment.crtOffset
        rw [if_pos hc, hga]
        norm_num [Int.lcm]
      rw [hr, Alignment.isSatisfied_iff_zero rfl,
        Alignment.isSatisfied_iff_zero hga, Alignment.isSatisfied_iff_dvd hgb]
      constructor
      · rintro ⟨h0, hs⟩
        exact ⟨⟨h0, hs⟩, hs ▸ hdvd⟩
      · rintro ⟨⟨h0, hs⟩, -⟩
        exact ⟨h0, hs⟩
    · -- b degenerate, a a true congruence: the CRT offset collapses to b's
      have hoeq : Alignment.crtOffset a b = b.offset := by
        have h := Alignment.crtOffset_dvd_right a b hc
        rw [hgb] at h
        exact sub_eq_zero.mp (zero_dvd_iff.mp h)
      have hr : a.intersect b = ⟨b.offset, 0⟩ := by
        unfold Alignment.intersect
        have hl : (Int.lcm a.grainSize b.grainSize : Int) = 0 := by
          rw [hgb]
          norm_num [Int.lcm]
        rw [if_pos hc, if_pos hl, hoeq]
      rw [hr, Alignment.isSatisfied_iff_zero rfl,
        Alignment.isSatisfied_iff_dvd hga, Alignment.isSatisfied_iff_zero hgb]
      constructor
      · rintro ⟨h0, hs⟩
        refine ⟨?_, h0, hs⟩
        rw [hs, ← hoeq]
        exact Alignment.crtOffset_dvd_left a b
      · rintro ⟨-, h0, hs⟩
        exact ⟨h0, hs⟩
    · -- both grains non-degenerate: genuine CRT merge
      have hln : Int.lcm a.grainSize b.grainSize ≠ 0 :=
        Nat.lcm_ne_zero (Int.natAbs_ne_zero.mpr hga) (Int.natAbs_ne_zero.mpr hgb)
      have hl : (Int.lcm a.grainSize b.grainSize : Int) ≠ 0 := Int.natCast_ne_zero.mpr hln
      have hr : a.intersect b =
          ⟨Alignment.crtOffset a b % (Int.lcm a.grainSize b.grainSize : Int),
            (Int.lcm a.grainSize b.grainSize : Int)⟩ := by
        unfold Alignment.intersect
        rw [if_pos hc, if_neg hl]
      rw [hr, Alignment.isSatisfied_iff_dvd hl,
        Alignment.isSatisfied_iff_dvd hga, Alignment.isSatisfied_iff_dvd hgb]
      have h1 : s - Alignment.crtOffset a b % (Int.lcm a.grainSize b.grainSize : Int)
          = (s - Alignment.crtOffset a b) +
            (Int.lcm a.grainSize b.grainSize : Int) * (Alignment.crtOffset a b / (Int.lcm a.grainSize b.grainSize : Int)) := by
        rw [Int.emod_def]
        ring
      rw [h1]
      rw [dvd_add_left (dvd_mul_right _ _)]
      constructor
      · intro h
        constructor
        · have h2 : s - a.offset = (s - Alignment.crtOffset a b) + (Alignment.crtOffset a b - a.offset) := by
            ring
          rw [h2]
          exact dvd_add (dvd_trans Int.dvd_lcm_left h) (Alignment.crtOffset_dvd_left a b)
        · have h2 : s - b.offset = (s - Alignment.crtOffset a b) + (Alignment.crtOffset a b - b.offset) := by
            ring
          rw [h2]
          exact dvd_add (dvd_trans Int.dvd_lcm_right h) (Alignment.crtOffset_dvd_right a b hc)
      · rintro ⟨hda, hdb⟩
        apply Int.lcm_dvd
        · have h2 : s - Alignment.crtOffset a b = (s - a.offset) - (Alignment.crtOffset a b - a.offset) := by
            ring
          rw [h2]
          exact dvd_sub hda (Alignment.crtOffset_dvd_left a b)
        · have h2 : s - Alignment.crtOffset a b = (s - b.offset) - (Alignment.crtOffset a b - b.offset) := by
            ring
          rw [h2]
          exact dvd_sub hdb (Alignment.crtOffset_dvd_right a b hc)
  · -- no CRT solution: the intersection is the empty "none" alignment
    rw [Alignment.intersect, if_neg hc]
    constructor
    · intro h
      rw [Alignment.isSatisfied_iff_zero rfl] at h
      exact absurd rfl h.1
    · rintro ⟨h1, h2⟩
      exact absurd (Alignment.satBoth_crtCond h1 h2) hc

/-- Intersecting a canonically-represented alignment with the universal
alignment gives back the alignment itself. -/
theorem Alignment.intersect_any_eq {a : Alignment} (h0 : 0 ≤ a.offset)
    (h1 : a.grainSize = 0 ∨ a.offset < a.grainSize) :
    a.intersect Alignment.any = a := by
  obtain ⟨o, g⟩ := a
  simp only at h0 h1
  have hc : (Alignment.mk o g).crtCond Alignment.any := by
    unfold Alignment.crtCond Alignment.any
    simp [Int.gcd, Int.natAbs_one, Nat.gcd_one_right, Int.emod_one]
  rcases h1 with hg | hlt
  · subst hg
    unfold Alignment.intersect
    rw [if_pos hc]
    have hl : ((Int.lcm (Alignment.mk o 0).grainSize Alignment.any.grainSize : Nat) : Int) = 0 := by
      norm_num [Alignment.any, Int.lcm]
    rw [if_pos hl]
    have ho : Alignment.crtOffset ⟨o, 0⟩ Alignment.any = o := by
      simp [Alignment.crtOffset]
    rw [ho]
  · have hgpos : (0 : Int) < g := lt_of_le_of_lt h0 hlt
    have hgeq : ((Int.lcm (Alignment.mk o g).grainSize Alignment.any.grainSize : Nat) : Int) = g := by
      show ((Int.lcm g 1 : Nat) : Int) = g
      unfold Int.lcm
      rw [Int.natAbs_one, Nat.lcm_one_right]
      exact Int.natAbs_of_nonneg (le_of_lt hgpos)
    unfold Alignment.intersect
    rw [if_pos hc, hgeq, if_neg (ne_of_gt hgpos)]
    have hd := Alignment.crtOffset_dvd_left ⟨o, g⟩ Alignment.any
    obtain ⟨k, hk⟩ := hd
    have ho : Alignment.crtOffset ⟨o, g⟩ Alignment.any = o + g * k := by
      have := hk
      simp only at this
      linarith
    rw [ho, Int.add_mul_emod_self_left, Int.emod_eq_of_lt h0 hlt]

/-- The intersection of two non-none alignments is non-empty exactly when
the CRT condition holds. -/
theorem Alignment.intersect_nonempty_iff {a b : Alignment}
    (hna : a ≠ Alignment.none) (hnb : b ≠ Alignment.none) :
    (∃ s, (a.intersect b).isSatisfied s) ↔ a.crtCond b := by
  constructor
  · rintro ⟨s, hs⟩
    rw [Alignment.intersect_isSatisfied] at hs
    exact Alignment.satBoth_crtCond hs.1 hs.2
  · intro hc
    refine ⟨Alignment.crtOffset a b, ?_⟩
    unfold Alignment.intersect
    rw [if_pos hc]
    by_cases hl : (Int.lcm a.grainSize b.grainSize : Int) = 0
    · rw [if_pos hl]
      have hzero : a.grainSize = 0 ∨ b.grainSize = 0 := by
        by_contra hcon
        push_neg at hcon
        exact (Int.natCast_ne_zero.mpr (Nat.lcm_ne_zero
          (Int.natAbs_ne_zero.mpr hcon.1) (Int.natAbs_ne_zero.mpr hcon.2))) hl
      rw [Alignment.isSatisfied_iff_zero rfl]
      refine ⟨?_, rfl⟩
      rcases hzero with hza | hzb
      · have ho : Alignment.crtOffset a b = a.offset := by
          simp [Alignment.crtOffset, hza]
        rw [ho]
        intro hoa
        apply hna
        obtain ⟨oa, ga⟩ := a
        simp only at hza hoa
        rw [Alignment.none, hza, hoa]
      · have ho : Alignment.crtOffset a b = b.offset := by
          have h := Alignment.crtOffset_dvd_right a b hc
          rw [hzb] at h
          exact sub_eq_zero.mp (zero_dvd_iff.mp h)
        rw [ho]
        intro hob
        apply hnb
        obtain ⟨ob, gb⟩ := b
        simp only at hzb hob
        rw [Alignment.none, hzb, hob]
    · rw [if_neg hl, Alignment.isSatisfied_iff_dvd hl]
      have : Alignment.crtOffset a b - Alignment.crtOffset a b % (Int.lcm a.grainSize b.grainSize : Int)
          = (Int.lcm a.grainSize b.grainSize : Int) * (Alignment.crtOffset a b / (Int.lcm a.grainSize b.grainSize : Int)) := by
        rw [Int.emod_def]
        ring
      rw [this]
      exact dvd_mul_right _ _

end Parted

/-- Claim C5 (amended): writing `gcd`/`lcm` for the non-negative gcd/lcm of
the grains, the modelled `Alignment.intersect` satisfies: (1) a sector
satisfies `a.intersect b` iff it satisfies both `a` and `b`, for ALL
alignments; (2) for inputs that are not the canonical "none" value, the
intersection is non-empty iff `(o1 - o2) mod gcd(g1,g2) = 0`; (3) a
non-empty intersection has grain `lcm(g1,g2)`; (4) intersecting a
canonically-represented alignment (offset inside `[0, grain)`, or degenerate
grain 0) with the universal alignment `(0,1)` is the identity; (5)
intersecting the incompatible parities `(0,2)` and `(1,2)` yields the "none"
alignment value rather than an error. -/
theorem C5_alignment_crt_law :
    (∀ a b : Parted.Alignment, ∀ s : Int,
        (a.intersect b).isSatisfied s ↔ (a.isSatisfied s ∧ b.isSatisfied s))
    ∧ (∀ a b : Parted.Alignment, a ≠ Parted.Alignment.none → b ≠ Parted.Alignment.none →
        ((∃ s, (a.intersect b).isSatisfied s) ↔
          (a.offset - b.offset) % (Int.gcd a.grainSize b.grainSize : Int) = 0))
    ∧ (∀ a b : Parted.Alignment, (∃ s, (a.intersect b).isSatisfied s) →
        (a.intersect b).grainSize = (Int.lcm a.grainSize b.grainSize : Int))
    ∧ (∀ a : Parted.Alignment, 0 ≤ a.offset → (a.grainSize = 0 ∨ a.offset < a.grainSize) →
        a.intersect Parted.Alignment.any = a)
    ∧ (Parted.Alignment.mk 0 2).intersect ⟨1, 2⟩ = Parted.Alignment.none := by
  refine ⟨Parted.Alignment.intersect_isSatisfied, ?_, ?_, ?_, ?_⟩
  · intro a b hna hnb
    exact Parted.Alignment.intersect_nonempty_iff hna hnb
  · intro a b hne
    obtain ⟨s, hs⟩ := hne
    rw [Parted.Alignment.intersect_isSatisfied] at hs
    have hc := Parted.Alignment.satBoth_crtCond hs.1 hs.2
    unfold Parted.Alignment.intersect
    rw [if_pos hc]
    by_cases hl : (Int.lcm a.grainSize b.grainSize : Int) = 0
    · rw [if_pos hl]
      exact hl.symm
    · rw [if_neg hl]
  · intro a h0 h1
    exact Parted.Alignment.intersect_any_eq h0 h1
  · decide

/-- Witness for C5's amended theorem: the satisfaction law at
`(0,2) ∩ (0,4)` and sector 8, the non-emptiness criterion at `(0,2)` vs
`(1,3)`, and the identity law at `(1,2)`. -/
theorem C5_alignment_crt_law_witness :
    (((Parted.Alignment.mk 0 2).intersect ⟨0, 4⟩).isSatisfied 8 ↔
      ((Parted.Alignment.mk 0 2).isSatisfied 8 ∧ (Parted.Alignment.mk 0 4).isSatisfied 8))
    ∧ ((∃ s, ((Parted.Alignment.mk 0 2).intersect ⟨1, 3⟩).isSatisfied s) ↔
        (((Parted.Alignment.mk 0 2).offset - (Parted.Alignment.mk 1 3).offset) %
          (Int.gcd (Parted.Alignment.mk 0 2).grainSize (Parted.Alignment.mk 1 3).grainSize : Int) = 0))
    ∧ (Parted.Alignment.mk 1 2).intersect Parted.Alignment.any = ⟨1, 2⟩ :=
  ⟨C5_alignment_crt_law.1 ⟨0, 2⟩ ⟨0, 4⟩ 8,
   C5_alignment_crt_law.2.1 ⟨0, 2⟩ ⟨1, 3⟩ (by decide) (by decide),
   C5_alignment_crt_law.2.2.2.1 ⟨1, 2⟩ (by decide) (by decide)⟩

/-- Claim C5 (counterexample): the claim's quantifier ranges over ALL
alignments, including the "none" value `(0,0)`.  For `a = none` and
`b = (0,1)` the CRT condition `(o1 - o2) mod gcd(g1,g2) = 0` holds, yet the
intersection is empty: "non-empty iff the condition holds" is false as
stated. -/
theorem C5_none_any_counterexample :
    ((Parted.Alignment.none.offset - Parted.Alignment.any.offset) %
        (Int.gcd Parted.Alignment.none.grainSize Parted.Alignment.any.grainSize : Int) = 0)
    ∧ ¬ (∃ s : Int, (Parted.Alignment.none.intersect Parted.Alignment.any).isSatisfied s) := by
  constructor
  · decide
  · rintro ⟨s, hs⟩
    have hr : Parted.Alignment.none.intersect Parted.Alignment.any = ⟨0, 0⟩ := by
      have hc : Parted.Alignment.none.crtCond Parted.Alignment.any := by decide
      unfold Parted.Alignment.intersect
      rw [if_pos hc]
      have hl : ((Int.lcm Parted.Alignment.none.grainSize Parted.Alignment.any.grainSize : Nat) : Int) = 0 := by
        decide
      rw [if_pos hl]
      have ho : Parted.Alignment.crtOffset Parted.Alignment.none Parted.Alignment.any = 0 := by
        simp [Parted.Alignment.crtOffset, Parted.Alignment.none, Parted.Alignment.any]
      rw [ho]
    rw [hr, Parted.Alignment.isSatisfied_iff_zero rfl] at hs
    exact hs.1 rfl

/-- Claim C3 (counterexample): the claim states that a negative start sector
passed to `Device.write` is NOT given the from-end interpretation.  On the
code it is: for a device of length 100, `write` with `sector_start = -1`
resolves the start to `100 + (-1) = 99`, exactly the from-end interpretation,
and not to `-1`. -/
theorem C3_write_negative_counterexample :
    Parted.Device.writeEffectiveStart ⟨512, 100⟩ (-1) = 100 + (-1) ∧
    Parted.Device.writeEffectiveStart ⟨512, 100⟩ (-1) ≠ -1 := by
  constructor
  · rfl
  · decide

/-- Claim C3 (amended): a negative start sector is interpreted as an offset
from the end of the device (`length + sector_start`) by BOTH `Device.read`
and `Device.write`; a non-negative start sector is used unchanged by both. -/
theorem C3_read_write_negative_from_end (dev : Parted.Device) (s : Int) (h : s < 0) :
    Parted.Device.readEffectiveStart dev s = dev.length + s ∧
    Parted.Device.writeEffectiveStart dev s = dev.length + s := by
  unfold Parted.Device.readEffectiveStart Parted.Device.writeEffectiveStart
  rw [if_pos h]
  exact ⟨rfl, rfl⟩

/-- Witness for C3's amended theorem at the concrete device of length 100 and
start sector -1. -/
theorem C3_read_write_negative_from_end_witness :
    Parted.Device.readEffectiveStart ⟨512, 100⟩ (-1) = 100 + (-1) ∧
    Parted.Device.writeEffectiveStart ⟨512, 100⟩ (-1) = 100 + (-1) :=
  C3_read_write_negative_from_end ⟨512, 100⟩ (-1) (by decide)

/-- Claim C8: `PedException.with_handler` installs the handler for the
duration of the body (the body observes slot state `some h`) and restores
exactly the previously-installed handler — including the default `none` when
none was installed — on every exit path (normal return and raise alike), so
the slot state after the with-block equals the state before it; the body's
outcome is propagated unchanged. -/
theorem C8_with_handler_restores {H : Type} (s0 : Option H) (h : H)
    (body : Option H → Option H × Bool) :
    (Parted.PedException.withHandler s0 h body).1 = s0 ∧
    (Parted.PedException.withHandler s0 h body).2 = (body (some h)).2 := by
  cases s0 <;>
    simp [Parted.PedException.withHandler, Parted.PedException.registerHandler,
      Parted.PedException.restoreHandler]

/-- Claim C6: a successful `Disk.delete_partition` zeroes the caller's
partition handle — `bool(partition)` and `partition.is_valid` are both false
afterwards; every failing path raises an error and leaves the handle
unchanged; and with a valid disk and partition, a failing native delete
raises `PartedException`. -/
theorem C6_delete_partition_invalidates (dh : Bool) (p : Parted.Partition) (ok : Bool) :
    ((Parted.Disk.deletePartition dh p ok).1 = Except.ok () →
      ((Parted.Disk.deletePartition dh p ok).2.hasHandle = false ∧
       (Parted.Disk.deletePartition dh p ok).2.isValid = false))
    ∧ ((Parted.Disk.deletePartition dh p ok).1 ≠ Except.ok () →
        (Parted.Disk.deletePartition dh p ok).2 = p)
    ∧ (dh = true → p.isValid = true → ok = false →
        (Parted.Disk.deletePartition dh p ok).1 = Except.error Parted.PyErr.parted) := by
  cases dh
  · simp [Parted.Disk.deletePartition]
  · cases hv : p.isValid
    · simp [Parted.Disk.deletePartition, hv]
    · cases ok
      · simp [Parted.Disk.deletePartition, hv]
      · have hred : (Parted.Disk.deletePartition true p true).2
            = { p with hasHandle := false, destroyable := false } := by
          simp [Parted.Disk.deletePartition, hv]
        refine ⟨fun _ => ⟨?_, ?_⟩, fun hne => absurd ?_ hne, fun _ _ hfalse => by cases hfalse⟩
        · rw [hred]
        · rw [hred]
          simp [Parted.Partition.isValid, Parted.Partition.active]
        · simp [Parted.Disk.deletePartition, hv]

/-- Witness for C6 at a concrete attached NORMAL partition: after a
successful delete the handle is zeroed and invalid. -/
theorem C6_delete_partition_invalidates_witness :
    (Parted.Disk.deletePartition true ⟨true, true, 0, true, true, true⟩ true).2.hasHandle = false ∧
    (Parted.Disk.deletePartition true ⟨true, true, 0, true, true, true⟩ true).2.isValid = false :=
  (C6_delete_partition_invalidates true ⟨true, true, 0, true, true, true⟩ true).1 rfl

/-- Claim C7 (counterexample): the claim states that setting `start` on a
Geometry whose underlying handle is null raises an error.  On the code it
does not: the `start` setter on a null handle returns successfully and
leaves the state unchanged (`geom.py` lines 126-127, `return  # Nothing to
do`), and likewise for `length` and `end`. -/
theorem C7_null_setter_counterexample :
    Parted.Geometry.setStartProp ⟨false, false, 0, 0, 0⟩ 5 = Except.ok ⟨false, false, 0, 0, 0⟩ ∧
    Parted.Geometry.setLengthProp ⟨false, false, 0, 0, 0⟩ 5 = Except.ok ⟨false, false, 0, 0, 0⟩ ∧
    Parted.Geometry.setEndProp ⟨false, false, 0, 0, 0⟩ 5 = Except.ok ⟨false, false, 0, 0, 0⟩ := by
  exact ⟨rfl, rfl, rfl⟩

/-- Claim C7 (amended): the `start`, `length` and `end` property setters on a
Geometry whose underlying handle is null are silent no-ops — they return
without raising and without changing the state — in contrast to mutating
METHODS guarded by `ensure_obj` (such as `Geometry.set`), which raise
`InvalidObjectError` on a null handle. -/
theorem C7_null_mutation_behavior (g : Parted.Geometry) (v : Int) (start len : Int)
    (h : g.hasHandle = false) :
    Parted.Geometry.setStartProp g v = Except.ok g ∧
    Parted.Geometry.setLengthProp g v = Except.ok g ∧
    Parted.Geometry.setEndProp g v = Except.ok g ∧
    Parted.Geometry.set g start len = Except.error Parted.PyErr.invalidObject := by
  refine ⟨?_, ?_, ?_, ?_⟩ <;>
    simp [Parted.Geometry.setStartProp, Parted.Geometry.setLengthProp,
      Parted.Geometry.setEndProp, Parted.Geometry.set, h]

/-- Witness for C7's amended theorem at a concrete null-handle geometry. -/
theorem C7_null_mutation_behavior_witness :
    Parted.Geometry.setStartProp ⟨false, true, 100, 3, 4⟩ 7 = Except.ok ⟨false, true, 100, 3, 4⟩ ∧
    Parted.Geometry.setLengthProp ⟨false, true, 100, 3, 4⟩ 7 = Except.ok ⟨false, true, 100, 3, 4⟩ ∧
    Parted.Geometry.setEndProp ⟨false, true, 100, 3, 4⟩ 7 = Except.ok ⟨false, true, 100, 3, 4⟩ ∧
    Parted.Geometry.set ⟨false, true, 100, 3, 4⟩ 5 5 = Except.error Parted.PyErr.invalidObject :=
  C7_null_mutation_behavior ⟨false, true, 100, 3, 4⟩ 7 5 5 rfl

/-- Claim C9: on a valid geometry with a valid device, `Geometry.set(start,
length)` raises whenever the effective start (with `-1` meaning "keep the
current start") is `≤ 0` or the effective length (with `-1` meaning "keep
the current length") is `≤ 0`; in particular `set` with start sector 0
always raises, for every geometry, so a geometry can never be repositioned
via `set()` to begin at sector 0. -/
theorem C9_geometry_set_rejects :
    (∀ (g : Parted.Geometry) (s l : Int), g.hasHandle = true → g.hasDev = true →
      ((if s = -1 then g.start else s) ≤ 0 ∨ (if l = -1 then g.length else l) ≤ 0) →
      ∃ e, Parted.Geometry.set g s l = Except.error e)
    ∧ (∀ (g : Parted.Geometry) (l : Int), ∃ e, Parted.Geometry.set g 0 l = Except.error e) := by
  constructor
  · intro g s l hh hd hbad
    unfold Parted.Geometry.set
    rw [if_neg (by simp [hh]), if_neg (by simp [hd])]
    by_cases hs : (if s = -1 then g.start else s) ≤ 0
    · exact ⟨Parted.PyErr.parted, by rw [if_pos hs]⟩
    · have hl : (if l = -1 then g.length else l) ≤ 0 := hbad.resolve_left hs
      exact ⟨Parted.PyErr.parted, by rw [if_neg hs, if_pos hl]⟩
  · intro g l
    unfold Parted.Geometry.set
    by_cases hh : g.hasHandle
    · by_cases hd : g.hasDev
      · refine ⟨Parted.PyErr.parted, ?_⟩
        rw [if_neg (by simp [hh]), if_neg (by simp [hd])]
        have h0 : ((if (0 : Int) = -1 then g.start else 0) ≤ 0) := by norm_num
        rw [if_pos h0]
      · exact ⟨Parted.PyErr.invalidDevice, by rw [if_neg (by simp [hh]), if_pos (by simp [hd])]⟩
    · exact ⟨Parted.PyErr.invalidObject, by rw [if_pos (by simp [hh])]⟩

/-- Witness for C9 at a concrete valid geometry: `set(0, 3)` errors. -/
theorem C9_geometry_set_rejects_witness :
    ∃ e, Parted.Geometry.set ⟨true, true, 100, 5, 5⟩ 0 3 = Except.error e :=
  C9_geometry_set_rejects.1 ⟨true, true, 100, 5, 5⟩ 0 3 rfl rfl (by norm_num)

/-- Claim C2 (failing input): on a device whose sectors 0..39 hold the
values 0..39, `Device.copy` of the 33-sector source starting at sector 0 to
destination sector 1 with `sectors_block = 32` self-clobbers: the final
partial block's source (sector 32) is overwritten by the preceding
full-block write before it is read, so destination sector 33 ends up holding
31 instead of the 32 that the source range held there before the copy, and
the destination range does not equal the pre-copy source range. -/
theorem C2_copy_clobbers_partial_block :
    (Parted.Device.copy (List.range 40) 0 33 1 32).getD 33 0 = 31
    ∧ (List.range 40).getD 32 0 = 32
    ∧ ((Parted.Device.copy (List.range 40) 0 33 1 32).drop 1).take 33 ≠ (List.range 40).take 33 := by
  refine ⟨by decide, by decide, by decide⟩

/-- Claim C4 (counterexample): the claim states the grain is
`ceil(boundary / sector_size)` with the boundary in bytes.  On the code the
argument is multiplied by 1024 first (it is interpreted in KiB): for
`sector_size = 512` and boundary argument 512, the constraint built has
grain 1024, not `ceil(512 / 512) = 1`; and the end alignment has offset -1,
not 0. -/
theorem C4_align_kib_counterexample :
    Parted.Constraint.align ⟨512, 65536⟩ 512 =
      Except.ok ⟨⟨0, 1024⟩, ⟨-1, 1024⟩, ⟨0, 65536⟩, ⟨0, 65536⟩, 1024, 65536⟩
    ∧ (1024 : Int) ≠ (512 + 512 - 1) / 512 := by
  exact ⟨rfl, by decide⟩

/-- Claim C4 (amended): `Constraint.align(dev, b)` interprets `b` in KiB and
rounds `b * 1024` bytes up to whole sectors, `G = ceil(b * 1024 /
sector_size)` (computed by floor division on the adjusted numerator); the
returned constraint has start alignment `(0, G)`, end alignment `(-1, G)`,
start and end ranges spanning the whole device, `min_size = G` and
`max_size = dev.length`; consequently every solution geometry has `start`,
`end + 1` and `length` each an exact multiple of `G`. -/
theorem C4_align_constraint (dev : Parted.Device) (b G : Int)
    (hss : 1 ≤ dev.sectorSize) (hlen : 1 ≤ dev.length) (hb : 1 ≤ b)
    (hG : G = Int.fdiv (b * 1024 + dev.sectorSize - 1) dev.sectorSize) :
    Parted.Constraint.align dev b =
      Except.ok ⟨⟨0, G⟩, ⟨-1, G⟩, ⟨0, dev.length⟩, ⟨0, dev.length⟩, G, dev.length⟩
    ∧ 1 ≤ G
    ∧ (∀ g : Parted.GeomRange,
        (Parted.Constraint.mk ⟨0, G⟩ ⟨-1, G⟩ ⟨0, dev.length⟩ ⟨0, dev.length⟩ G dev.length).isSolution g →
        G ∣ g.start ∧ G ∣ (g.sectorEnd + 1) ∧ G ∣ g.length) := by
  have hspos : (0 : Int) < dev.sectorSize := hss
  have hGpos : 1 ≤ G := by
    rw [hG, Int.fdiv_eq_ediv _ (le_of_lt hspos)]
    rw [Int.le_ediv_iff_mul_le hspos]
    nlinarith
  refine ⟨?_, hGpos, ?_⟩
  · unfold Parted.Constraint.align
    rw [← hG, if_neg (by omega), if_neg (by omega)]
  · intro g hsol
    obtain ⟨hsa, -, hea, -, -, -⟩ := hsol
    have hGne : G ≠ 0 := by omega
    rw [Parted.Alignment.isSatisfied_iff_dvd hGne] at hsa hea
    simp only [sub_zero] at hsa
    have hea' : G ∣ (g.sectorEnd + 1) := by
      have : Parted.GeomRange.sectorEnd g - (-1) = g.sectorEnd + 1 := by ring
      rwa [this] at hea
    refine ⟨hsa, hea', ?_⟩
    have hlen' : g.length = (g.sectorEnd + 1) - g.start := by
      unfold Parted.GeomRange.sectorEnd
      ring
    rw [hlen']
    exact dvd_sub hea' hsa

/-- Witness for C4's amended theorem at `sector_size = 512`,
`dev.length = 65536`, boundary argument 512 (so grain 1024). -/
theorem C4_align_constraint_witness :
    Parted.Constraint.align ⟨512, 65536⟩ 512 =
      Except.ok ⟨⟨0, 1024⟩, ⟨-1, 1024⟩, ⟨0, 65536⟩, ⟨0, 65536⟩, 1024, 65536⟩
    ∧ (1 : Int) ≤ 1024
    ∧ (∀ g : Parted.GeomRange,
        (Parted.Constraint.mk ⟨0, 1024⟩ ⟨-1, 1024⟩ ⟨0, 65536⟩ ⟨0, 65536⟩ 1024 65536).isSolution g →
        (1024 : Int) ∣ g.start ∧ (1024 : Int) ∣ (g.sectorEnd + 1) ∧ (1024 : Int) ∣ g.length) :=
  C4_align_constraint ⟨512, 65536⟩ 512 1024 (by norm_num) (by norm_num) (by norm_num) (by decide)

/-- Claim C1 (counterexample): the claim states the synthesized constraint
equals the exact constraint, with `start_range` and `end_range` collapsed to
single-sector ranges.  On the code the LENGTH passed to each range is the
sector number itself (`disk.py` lines 1073-1074): for a partition geometry
`(start = 2, length = 2)` on a device of 100 sectors the synthesized
`start_range` is `(2, 2)`, not the single-sector `(2, 1)`. -/
theorem C1_synth_not_exact_counterexample :
    Parted.Disk.addPartitionSynthConstraint 100 ⟨2, 2⟩ =
      some ⟨⟨2, 0⟩, ⟨3, 0⟩, ⟨2, 2⟩, ⟨3, 3⟩, 2, 2⟩
    ∧ (Parted.GeomRange.mk 2 2) ≠ ⟨2, 1⟩ := by
  exact ⟨rfl, by decide⟩

/-- Claim C1 (amended): with no constraint supplied, `Disk.add_partition`
synthesizes a constraint with `start_align = (g.start, 0)`,
`end_align = (g.end, 0)`, `min_size = max_size = g.length`, but with
`start_range = Geometry(dev, g.start, g.start)` and
`end_range = Geometry(dev, g.end, g.end)` — each range's length is the
sector number, not 1.  Provided `g.start ≥ 1`, `g.length ≥ 1` and both
ranges fit on the device, the synthesis succeeds and the only geometry
satisfying the synthesized constraint is still `g` itself. -/
theorem C1_add_partition_synth_constraint (devLength : Int) (pg : Parted.GeomRange)
    (hstart : 1 ≤ pg.start) (hlen : 1 ≤ pg.length)
    (hs2 : pg.start + pg.start ≤ devLength) (he2 : pg.sectorEnd + pg.sectorEnd ≤ devLength) :
    Parted.Disk.addPartitionSynthConstraint devLength pg =
      some ⟨⟨pg.start, 0⟩, ⟨pg.sectorEnd, 0⟩, ⟨pg.start, pg.start⟩,
        ⟨pg.sectorEnd, pg.sectorEnd⟩, pg.length, pg.length⟩
    ∧ ∀ g : Parted.GeomRange,
        (Parted.Constraint.mk ⟨pg.start, 0⟩ ⟨pg.sectorEnd, 0⟩ ⟨pg.start, pg.start⟩
          ⟨pg.sectorEnd, pg.sectorEnd⟩ pg.length pg.length).isSolution g ↔
        (g.start = pg.start ∧ g.length = pg.length) := by
  have hend1 : 1 ≤ pg.sectorEnd := by
    unfold Parted.GeomRange.sectorEnd
    omega
  constructor
  · have h1 : Parted.pedGeometryNew devLength pg.start pg.start = some ⟨pg.start, pg.start⟩ := by
      unfold Parted.pedGeometryNew
      rw [if_pos]
      exact ⟨by omega, hstart, hs2⟩
    have h2 : Parted.pedGeometryNew devLength pg.sectorEnd pg.sectorEnd
        = some ⟨pg.sectorEnd, pg.sectorEnd⟩ := by
      unfold Parted.pedGeometryNew
      rw [if_pos]
      exact ⟨by omega, hend1, he2⟩
    unfold Parted.Disk.addPartitionSynthConstraint
    rw [h1, h2]
    simp only
    rw [if_neg (by omega)]
  · intro g
    unfold Parted.Constraint.isSolution
    rw [Parted.Alignment.isSatisfied_iff_zero rfl, Parted.Alignment.isSatisfied_iff_zero rfl]
    unfold Parted.GeomRange.containsSector Parted.GeomRange.sectorEnd
    simp only
    constructor
    · rintro ⟨⟨-, hs⟩, -, -, -, hmin, hmax⟩
      exact ⟨hs, by omega⟩
    · rintro ⟨h1, h2⟩
      refine ⟨⟨by omega, h1⟩, ⟨by omega, by omega⟩, ⟨by omega, by omega⟩,
        ⟨by omega, by omega⟩, by omega, by omega⟩

/-- Witness for C1's amended theorem at the partition geometry
`(start = 2, length = 2)` on a 100-sector device. -/
theorem C1_add_partition_synth_constraint_witness :
    Parted.Disk.addPartitionSynthConstraint 100 ⟨2, 2⟩ =
      some ⟨⟨2, 0⟩, ⟨3, 0⟩, ⟨2, 2⟩, ⟨3, 3⟩, 2, 2⟩
    ∧ ∀ g : Parted.GeomRange,
        (Parted.Constraint.mk ⟨2, 0⟩ ⟨3, 0⟩ ⟨2, 2⟩ ⟨3, 3⟩ 2 2).isSolution g ↔
        (g.start = 2 ∧ g.length = 2) :=
  C1_add_partition_synth_constraint 100 ⟨2, 2⟩ (by norm_num) (by norm_num) (by norm_num)
    (by decide)

/-- Ceiling division via `(L + ss - 1) / ss` exceeds the floor by exactly one
when the divisor does not divide `L`. -/
theorem Parted.ceilDiv_of_not_dvd {L ss : Nat} (hss : 0 < ss) (hnd : ¬ ss ∣ L) :
    (L + ss - 1) / ss = L / ss + 1 := by
  have hr : L % ss ≠ 0 := fun h => hnd (Nat.dvd_of_mod_eq_zero h)
  have hdm := Nat.div_add_mod L ss
  have hrlt : L % ss < ss := Nat.mod_lt _ hss
  have hmul : (L / ss + 1) * ss = ss * (L / ss) + ss := by ring
  have key : L + ss - 1 = (L % ss - 1) + (L / ss + 1) * ss := by
    generalize L / ss = q at hdm hmul
    generalize L % ss = r at hdm hr hrlt
    omega
  rw [key, Nat.add_mul_div_right _ _ hss, Nat.div_eq_of_lt (by omega)]
  generalize hqq : L / ss = q
  rw [hqq] at hdm
  generalize L % ss = r at hdm hr hrlt
  omega

/-- Claim C10: when `len(data)` is not an exact multiple of the sector size,
`Geometry.write` writes `ceil(len(data)/sector_size)` sectors (the affected
window is the smallest whole-sector span covering the data), every byte at
or beyond position `len(data)` of the written window — in particular every
byte of the final written sector beyond the data — retains the value
previously stored on the device, no byte before the window is modified, and
the data bytes themselves are written verbatim. -/
theorem C10_geometry_write_rmw (devBytes : Nat → Nat) (ss : Nat) (data : List Nat)
    (offset : Nat) (hss : 0 < ss) (hnd : ¬ ss ∣ data.length) :
    (data.length ≤ ((data.length + ss - 1) / ss) * ss ∧
      ((data.length + ss - 1) / ss) * ss < data.length + ss)
    ∧ (∀ p : Nat, p < offset * ss ∨ offset * ss + data.length ≤ p →
        Parted.Geometry.writeBytes devBytes ss data offset p = devBytes p)
    ∧ (∀ j : Nat, j < data.length →
        Parted.Geometry.writeBytes devBytes ss data offset (offset * ss + j) = data.getD j 0) := by
  have hceil := Parted.ceilDiv_of_not_dvd hss hnd
  have hdm := Nat.div_add_mod data.length ss
  have hrlt : data.length % ss < ss := Nat.mod_lt _ hss
  have hr : data.length % ss ≠ 0 := fun h => hnd (Nat.dvd_of_mod_eq_zero h)
  have hLlt : data.length < ((data.length + ss - 1) / ss) * ss := by
    rw [hceil]
    generalize hq : data.length / ss = q at hdm
    generalize hrg : data.length % ss = r at hdm hr hrlt
    have : (q + 1) * ss = ss * q + ss := by ring
    omega
  refine ⟨?_, ?_, ?_⟩
  · rw [hceil]
    generalize hq : data.length / ss = q at hdm
    generalize hrg : data.length % ss = r at hdm hr hrlt
    have : (q + 1) * ss = ss * q + ss := by ring
    omega
  · intro p hp
    unfold Parted.Geometry.writeBytes
    simp only [if_pos hLlt]
    rcases hp with hlo | hhi
    · rw [if_neg (by
        generalize (data.length + ss - 1) / ss = sc
        omega)]
    · by_cases hin : p < offset * ss + ((data.length + ss - 1) / ss) * ss
      · rw [if_pos ⟨by omega, hin⟩]
        rw [List.getD_append_right _ _ _ _ (by omega)]
        unfold Parted.Geometry.readBytes
        rw [List.getD_eq_getD_get?, List.get?_eq_getElem?, List.getElem?_drop,
          List.getElem?_map, List.getElem?_range (by
            rw [hceil] at hin
            generalize hq : data.length / ss = q at hdm hin
            generalize hrg : data.length % ss = r at hdm hr hrlt ⊢
            have h1 : (q + 1) * ss = ss * q + ss := by ring
            have h2 : 1 * ss = ss := by ring
            omega)]
        simp only [Option.map_some', Option.getD_some]
        rw [hceil] at hin ⊢
        generalize hq : data.length / ss = q at hdm hin ⊢
        generalize hrg : data.length % ss = r at hdm hr hrlt ⊢
        have hsc : offset + (q + 1) - 1 = offset + q := by omega
        rw [hsc]
        have hprod : (offset + q) * ss = offset * ss + ss * q := by ring
        rw [hprod]
        have h1 : (q + 1) * ss = ss * q + ss := by ring
        congr 1
        omega
      · rw [if_neg (by omega)]
  · intro j hj
    unfold Parted.Geometry.writeBytes
    simp only [if_pos hLlt]
    rw [if_pos ⟨by omega, by omega⟩]
    have hidx : offset * ss + j - offset * ss = j := by omega
    rw [hidx, List.getD_append _ _ _ _ hj]

/-- Witness for C10 at sector size 4, a 6-byte payload and offset sector 2
on the identity-content device. -/
theorem C10_geometry_write_rmw_witness :
    (([9, 9, 9, 9, 9, 9] : List Nat).length ≤
        ((([9, 9, 9, 9, 9, 9] : List Nat).length + 4 - 1) / 4) * 4 ∧
      ((([9, 9, 9, 9, 9, 9] : List Nat).length + 4 - 1) / 4) * 4 <
        ([9, 9, 9, 9, 9, 9] : List Nat).length + 4)
    ∧ (∀ p : Nat, p < 2 * 4 ∨ 2 * 4 + ([9, 9, 9, 9, 9, 9] : List Nat).length ≤ p →
        Parted.Geometry.writeBytes (fun q => q) 4 [9, 9, 9, 9, 9, 9] 2 p = (fun q => q) p)
    ∧ (∀ j : Nat, j < ([9, 9, 9, 9, 9, 9] : List Nat).length →
        Parted.Geometry.writeBytes (fun q => q) 4 [9, 9, 9, 9, 9, 9] 2 (2 * 4 + j) =
          ([9, 9, 9, 9, 9, 9] : List Nat).getD j 0) :=
  C10_geometry_write_rmw (fun q => q) 4 [9, 9, 9, 9, 9, 9] 2 (by norm_num) (by decide)
